import Mathlib

/-!
Verification of the PKCE core (src/lib/pkce.ts) of okta-auth-js.

The development shallowly embeds the module: pure helpers become Lean
functions; the browser storage used by the flow-metadata store becomes an
explicit two-tier state that every operation threads; functions that can
throw return Except values carrying the thrown AuthSdkError. JavaScript
string values are Lean strings, JavaScript truthiness of an optional string
is the predicate truthy below, and the record objects held in storage are
association lists of string fields.

Collaborators that live outside src/lib/pkce.ts (the constants module, the
util helpers warn / removeNils / toQueryString / stringToBase64Url, the
storage resolver getPKCEStorage, the crypto primitives and the HTTP client)
are modelled from the specification, as marked on each such definition.
-/

/-- Modelled from the spec: constant MIN_VERIFIER_LENGTH from the constants
module (not under src), the minimum code-verifier length of 43 characters. -/
def MIN_VERIFIER_LENGTH : Nat := 43

/-- Modelled from the spec: constant MAX_VERIFIER_LENGTH from the constants
module (not under src), the maximum code-verifier length of 128 characters. -/
def MAX_VERIFIER_LENGTH : Nat := 128

/-- Modelled from the spec: constant DEFAULT_CODE_CHALLENGE_METHOD from the
constants module (not under src), the only supported challenge method. -/
def DEFAULT_CODE_CHALLENGE_METHOD : String := "S256"

/-- JavaScript truthiness of an optional string: undefined and the empty
string are falsy, every other string is truthy. -/
def truthy : Option String → Bool
  | some s => s != ""
  | none => false

/-- JavaScript s.slice(0, n): the first n characters of a string. -/
def jsSliceTo (s : String) (n : Nat) : String := String.mk (s.data.take n)

/-- JavaScript s.slice(n): the string without its first n characters. -/
def jsSliceFrom (s : String) (n : Nat) : String := String.mk (s.data.drop n)

/-- UTF-8 encoding of a single character, as byte values. Models the encoding
performed by TextEncoder and by the percent-encoding of encodeURIComponent. -/
def utf8Bytes (c : Char) : List Nat :=
  let n := c.toNat
  if n < 128 then [n]
  else if n < 2048 then [192 + n / 64, 128 + n % 64]
  else if n < 65536 then [224 + n / 4096, 128 + n / 64 % 64, 128 + n % 64]
  else [240 + n / 262144, 128 + n / 4096 % 64, 128 + n / 64 % 64, 128 + n % 64]

/-- Characters that encodeURIComponent leaves unchanged besides letters and
digits: the marks - _ . ! ~ * apostrophe ( ) . -/
def isUnreservedMark (c : Char) : Bool :=
  c == '-' || c == '_' || c == '.' || c == '!' || c == '~' || c == '*' ||
  c == Char.ofNat 39 || c == '(' || c == ')'

/-- Characters that encodeURIComponent leaves unchanged: ASCII letters,
digits, and the unreserved marks. These are the URL-safe characters. -/
def isUnreserved (c : Char) : Bool :=
  c.isAlpha || c.isDigit || isUnreservedMark c

/-- Upper-case hexadecimal rendering of a byte, two digits. -/
def byteToHexUpper (b : Nat) : List Char :=
  [("0123456789ABCDEF".data).getD (b / 16 % 16) '0',
   ("0123456789ABCDEF".data).getD (b % 16) '0']

/-- Percent-encoding of one character: unreserved characters pass through,
any other character becomes a percent-escape per UTF-8 byte. -/
def encodeChar (c : Char) : List Char :=
  if isUnreserved c then [c]
  else (utf8Bytes c).flatMap (fun b => '%' :: byteToHexUpper b)

/-- JavaScript encodeURIComponent, modelling the global used at the end of
generateVerifier and inside the query serialization. -/
def encodeURIComponent (s : String) : String := String.mk (s.data.flatMap encodeChar)

/-- Source dec2hex: prepend a zero to the base-16 rendering of a byte and keep
the last two characters. -/
def dec2hex (dec : Nat) : String :=
  let s := "0" ++ String.mk (Nat.toDigits 16 dec)
  String.mk (s.data.drop (s.data.length - 2))

/-- Source getRandomString: fill ceil(length / 2) bytes from the random
source (a Uint8Array stores the values modulo 256), render each as two hex
characters, concatenate, and keep the first length characters. The random
source crypto.getRandomValues is modelled as an explicit byte stream rnd. -/
def getRandomString (rnd : Nat → Nat) (length : Nat) : String :=
  let a := (List.range ((length + 1) / 2)).map (fun i => rnd i % 256)
  let str := String.join (a.map dec2hex)
  jsSliceTo str length

/-- Source generateVerifier: start from the given prefix (or the empty string
when it is omitted), append random hex characters until MIN_VERIFIER_LENGTH
characters, percent-encode, and truncate to MAX_VERIFIER_LENGTH. -/
def generateVerifier (rnd : Nat → Nat) (pfx : Option String) : String :=
  let verifier := pfx.getD ""
  let verifier :=
    if verifier.length < MIN_VERIFIER_LENGTH then
      verifier ++ getRandomString rnd (MIN_VERIFIER_LENGTH - verifier.length)
    else verifier
  jsSliceTo (encodeURIComponent verifier) MAX_VERIFIER_LENGTH

/-- Error thrown by the module, identified by its summary message, matching
the AuthSdkError class used by the source. -/
structure AuthSdkError where
  errorSummary : String
deriving DecidableEq, Repr

/-- Warning text emitted by saveMeta when a codeVerifier already sits in the
durable tier (localStorage). -/
def saveMetaLocalWarning : String :=
  "saveMeta: PKCE codeVerifier exists in localStorage. This may indicate an auth flow is already in progress."

/-- Warning text emitted by saveMeta when a codeVerifier already sits in the
session tier (sessionStorage). -/
def saveMetaSessionWarning : String :=
  "saveMeta: PKCE codeVerifier exists in sessionStorage. This may indicate an auth flow is already in progress."

/-- Message of the error thrown by loadMeta when no usable record exists. -/
def loadMetaErrorMessage : String :=
  "Could not load PKCE codeVerifier from storage. This may indicate the auth flow has already completed or multiple auth flows are executing concurrently."

/-- Message of the error thrown by validateOptions on a missing clientId. -/
def clientIdErrorMessage : String :=
  "A clientId must be specified in the OktaAuth constructor to get a token"

/-- Message of the error thrown by validateOptions on a missing redirectUri. -/
def redirectUriErrorMessage : String :=
  "The redirectUri passed to /authorize must also be passed to /token"

/-- Message of the error thrown by validateOptions when both the authorization
code and the interaction code are missing. -/
def authorizationCodeErrorMessage : String :=
  "An authorization code (returned from /authorize) must be passed to /token"

/-- Message of the error thrown by validateOptions on a missing codeVerifier. -/
def codeVerifierErrorMessage : String :=
  "The \"codeVerifier\" (generated and saved by your app) must be passed to /token"

/-- A stored PKCE meta record: an object with string fields, as association
list. An empty list models the empty object an empty tier yields. -/
abbrev PKCEMeta : Type := List (String × String)

/-- Field access on a stored record: the value of the first field named k. -/
def lookupField (obj : PKCEMeta) (k : String) : Option String :=
  (List.find? (fun p => p.1 == k) obj).map (fun p => p.2)

/-- The two logical storage tiers: a is the durable tier (localStorage),
b is the session tier (sessionStorage). -/
inductive Tier
  | a
  | b
deriving DecidableEq, Repr

/-- State of the two storage tiers; each holds the record object that its
getStorage() would return (empty list for an empty tier). -/
structure StorageState where
  tierA : PKCEMeta
  tierB : PKCEMeta

/-- Content of one tier. -/
def readTier (t : Tier) (st : StorageState) : PKCEMeta :=
  match t with
  | Tier.a => st.tierA
  | Tier.b => st.tierB

/-- Replace the content of one tier, modelling setStorage. -/
def writeTier (t : Tier) (obj : PKCEMeta) (st : StorageState) : StorageState :=
  match t with
  | Tier.a => { st with tierA := obj }
  | Tier.b => { st with tierB := obj }

/-- Empty one tier, modelling clearStorage. -/
def clearTier (t : Tier) (st : StorageState) : StorageState := writeTier t [] st

/-- Modelled from the spec: getStorage resolves which concrete tier a call
addresses via the storage collaborator getPKCEStorage (not under src). The
preferLocalStorage option selects the durable tier A; when the option is
absent or false the session tier B is used. -/
def getStorage (preferLocalStorage : Option Bool) : Tier :=
  if preferLocalStorage.getD false then Tier.a else Tier.b

/-- Source clearMeta: clear the session tier, then clear the durable tier. -/
def clearMeta (st : StorageState) : StorageState :=
  let storage := getStorage none
  let st1 := clearTier storage st
  let storage2 := getStorage (some true)
  clearTier storage2 st1

/-- Source saveMeta: warn when either tier already holds a codeVerifier (the
util warn call, not under src, is modelled as an emitted message list), then
clear all meta storage via clearMeta, then write the record to the session
tier. The function has no throw site; it returns the new state and the
warnings. -/
def saveMeta (st : StorageState) (meta : PKCEMeta) : StorageState × List String :=
  let storageA := getStorage (some true)
  let objA := readTier storageA st
  let warnings := if truthy (lookupField objA "codeVerifier") then [saveMetaLocalWarning] else []
  let storageB := getStorage none
  let objB := readTier storageB st
  let warnings :=
    warnings ++ (if truthy (lookupField objB "codeVerifier") then [saveMetaSessionWarning] else [])
  let cleared := clearMeta st
  (writeTier storageB meta cleared, warnings)

/-- Source loadMeta: read the durable tier first; if its record has no
truthy codeVerifier, read the session tier; if that record has none either,
throw AuthSdkError. The operation performs no writes, and the state it
returns alongside the result records that. -/
def loadMeta (st : StorageState) : Except AuthSdkError PKCEMeta × StorageState :=
  let storage := getStorage (some true)
  let obj := readTier storage st
  if !(truthy (lookupField obj "codeVerifier")) then
    let storage2 := getStorage (some false)
    let obj2 := readTier storage2 st
    if !(truthy (lookupField obj2 "codeVerifier")) then
      (Except.error ⟨loadMetaErrorMessage⟩, st)
    else (Except.ok obj2, st)
  else (Except.ok obj, st)

/-- Token-request parameters consumed by the exchanger; each field is an
optional string as in the TypeScript TokenParams interface. -/
structure TokenParams where
  clientId : Option String
  redirectUri : Option String
  authorizationCode : Option String
  interactionCode : Option String
  codeVerifier : Option String
deriving DecidableEq, Repr

/-- Source validateOptions: the four fail-fast checks in source order; the
first violated check throws and ends the call. -/
def validateOptions (options : TokenParams) : Except AuthSdkError Unit :=
  if !(truthy options.clientId) then
    Except.error ⟨clientIdErrorMessage⟩
  else if !(truthy options.redirectUri) then
    Except.error ⟨redirectUriErrorMessage⟩
  else if !(truthy options.authorizationCode) && !(truthy options.interactionCode) then
    Except.error ⟨authorizationCodeErrorMessage⟩
  else if !(truthy options.codeVerifier) then
    Except.error ⟨codeVerifierErrorMessage⟩
  else Except.ok ()

/-- Modelled from the spec: util removeNils (not under src) drops every
field whose value is absent (null or undefined) and keeps the rest. -/
def removeNils (fields : List (String × Option String)) : List (String × String) :=
  fields.filterMap (fun p => p.2.map (fun v => (p.1, v)))

/-- Source getPostData, params object: build the OAuth parameter object sent
to the token endpoint, before its query-string serialization. -/
def getPostDataParams (options : TokenParams) : List (String × String) :=
  let params := removeNils
    [("client_id", options.clientId),
     ("redirect_uri", options.redirectUri),
     ("grant_type",
       some (if truthy options.interactionCode then "interaction_code" else "authorization_code")),
     ("code_verifier", options.codeVerifier)]
  if truthy options.interactionCode then
    params ++ [("interaction_code", options.interactionCode.getD "")]
  else if truthy options.authorizationCode then
    params ++ [("code", options.authorizationCode.getD "")]
  else params

/-- Modelled from the spec: util toQueryString (not under src) serializes a
parameter object as a question mark followed by ampersand-separated
key=value pairs with percent-encoded values, or the empty string when there
are no parameters. -/
def toQueryString (params : List (String × String)) : String :=
  let str := params.map (fun p => p.1 ++ "=" ++ encodeURIComponent p.2)
  if str.length > 0 then "?" ++ String.intercalate "&" str else ""

/-- Source getPostData: the serialized form body, the query string without
its leading question mark. -/
def getPostData (options : TokenParams) : String :=
  jsSliceFrom (toQueryString (getPostDataParams options)) 1

/-- Token endpoint URLs handed to the exchanger. -/
structure CustomUrls where
  tokenUrl : String
deriving DecidableEq, Repr

/-- Description of the single HTTP request the exchanger issues through the
external HTTP collaborator: url, method, form body, credential mode and
content type, exactly the fields the source passes to httpRequest. -/
structure HttpRequest where
  url : String
  method : String
  args : String
  withCredentials : Bool
  contentType : String
deriving DecidableEq, Repr

/-- Source exchangeCodeForTokens: validate the options (propagating the
thrown error), build the form body, and issue the POST to the token URL.
The external HTTP call itself is modelled by returning the request that is
issued; an error result means no request was issued. -/
def exchangeCodeForTokens (options : TokenParams) (urls : CustomUrls) :
    Except AuthSdkError HttpRequest :=
  match validateOptions options with
  | Except.error e => Except.error e
  | Except.ok _ =>
    let data := getPostData options
    Except.ok
      { url := urls.tokenUrl
        method := "POST"
        args := data
        withCredentials := false
        contentType := "application/x-www-form-urlencoded" }

/-- Reduction of a natural number to a 32-bit word. -/
def w32 (n : Nat) : Nat := n % 4294967296

/-- Right rotation of a 32-bit word by n bits. -/
def rotr32 (n x : Nat) : Nat := x / 2 ^ n + x % 2 ^ n * 2 ^ (32 - n)

/-- Logical right shift of a 32-bit word by n bits. -/
def shr32 (n x : Nat) : Nat := x / 2 ^ n

/-- Exclusive or of three words. -/
def xor3 (a b c : Nat) : Nat := (a ^^^ b) ^^^ c

/-- SHA-256 message-schedule sigma functions. -/
def smallSigma0 (x : Nat) : Nat := xor3 (rotr32 7 x) (rotr32 18 x) (shr32 3 x)

/-- Second message-schedule sigma function. -/
def smallSigma1 (x : Nat) : Nat := xor3 (rotr32 17 x) (rotr32 19 x) (shr32 10 x)

/-- SHA-256 compression Sigma functions. -/
def bigSigma0 (x : Nat) : Nat := xor3 (rotr32 2 x) (rotr32 13 x) (rotr32 22 x)

/-- Second compression Sigma function. -/
def bigSigma1 (x : Nat) : Nat := xor3 (rotr32 6 x) (rotr32 11 x) (rotr32 25 x)

/-- SHA-256 choose function. -/
def ch32 (e f g : Nat) : Nat := (e &&& f) ^^^ ((4294967295 ^^^ e) &&& g)

/-- SHA-256 majority function. -/
def maj32 (a b c : Nat) : Nat := xor3 (a &&& b) (a &&& c) (b &&& c)

/-- SHA-256 round constants. -/
def sha256K : List Nat :=
  [1116352408, 1899447441, 3049323471, 3921009573,
   961987163, 1508970993, 2453635748, 2870763221,
   3624381080, 310598401, 607225278, 1426881987,
   1925078388, 2162078206, 2614888103, 3248222580,
   3835390401, 4022224774, 264347078, 604807628,
   770255983, 1249150122, 1555081692, 1996064986,
   2554220882, 2821834349, 2952996808, 3210313671,
   3336571891, 3584528711, 113926993, 338241895,
   666307205, 773529912, 1294757372, 1396182291,
   1695183700, 1986661051, 2177026350, 2456956037,
   2730485921, 2820302411, 3259730800, 3345764771,
   3516065817, 3600352804, 4094571909, 275423344,
   430227734, 506948616, 659060556, 883997877,
   958139571, 1322822218, 1537002063, 1747873779,
   1955562222, 2024104815, 2227730452, 2361852424,
   2428436474, 2756734187, 3204031479, 3329325298]

/-- SHA-256 initial hash values. -/
def sha256H0 : List Nat :=
  [1779033703, 3144134277, 1013904242, 2773480762,
   1359893119, 2600822924, 528734635, 1541459225]

/-- Big-endian word from a byte list. -/
def bytesToWord (bs : List Nat) : Nat := bs.foldl (fun acc b => acc * 256 + b) 0

/-- Big-endian bytes of a 32-bit word. -/
def wordToBytes (w : Nat) : List Nat :=
  [w / 16777216 % 256, w / 65536 % 256, w / 256 % 256, w % 256]

/-- Extend the 16 scheduled words by n further words. -/
def extendSchedule : List Nat → Nat → List Nat
  | ws, 0 => ws
  | ws, n + 1 =>
    let i := ws.length
    let next := w32 (smallSigma1 (ws.getD (i - 2) 0) + ws.getD (i - 7) 0 +
      smallSigma0 (ws.getD (i - 15) 0) + ws.getD (i - 16) 0)
    extendSchedule (ws ++ [next]) n

/-- One SHA-256 compression round on the eight-word state. -/
def compressStep (state : List Nat) (kw : Nat × Nat) : List Nat :=
  match state with
  | [a, b, c, d, e, f, g, h] =>
    let temp1 := w32 (h + bigSigma1 e + ch32 e f g + kw.1 + kw.2)
    let temp2 := w32 (bigSigma0 a + maj32 a b c)
    [w32 (temp1 + temp2), a, b, c, w32 (d + temp1), e, f, g]
  | other => other

/-- Compress one 64-byte block into the running hash values. -/
def compressBlock (hs : List Nat) (block : List Nat) : List Nat :=
  let ws0 := (List.range 16).map (fun i => bytesToWord ((block.drop (4 * i)).take 4))
  let ws := extendSchedule ws0 48
  let final := (sha256K.zip ws).foldl compressStep hs
  (hs.zip final).map (fun p => w32 (p.1 + p.2))

/-- SHA-256 padding: a one bit, zeros to 56 mod 64 bytes, and the bit length
as eight big-endian bytes. -/
def sha256Pad (msg : List Nat) : List Nat :=
  let len := msg.length
  let zeros := (119 - len % 64) % 64
  let bl := 8 * len
  msg ++ [128] ++ List.replicate zeros 0 ++
    [bl / 72057594037927936 % 256, bl / 281474976710656 % 256,
     bl / 1099511627776 % 256, bl / 4294967296 % 256,
     bl / 16777216 % 256, bl / 65536 % 256, bl / 256 % 256, bl % 256]

/-- Split a byte list into 64-byte blocks. -/
def chunks64 (l : List Nat) : List (List Nat) :=
  if h : l.isEmpty then [] else l.take 64 :: chunks64 (l.drop 64)
termination_by l.length
decreasing_by
  simp only [List.length_drop]
  have hne : l ≠ [] := by simpa [List.isEmpty_iff] using h
  have hpos : 0 < l.length := List.length_pos.mpr hne
  omega

/-- Modelled from the spec: the SHA-256 digest primitive behind
crypto.subtle.digest (an external collaborator); bytes in, 32 digest bytes
out, following the FIPS 180-4 algorithm the spec names. -/
def sha256 (msg : List Nat) : List Nat :=
  let padded := sha256Pad (msg.map (fun b => b % 256))
  let hs := (chunks64 padded).foldl compressBlock sha256H0
  hs.flatMap wordToBytes

/-- The standard base64 alphabet in index order. -/
def base64Alphabet : List Char :=
  "ABCDEFGHIJKLMNOPQRSTUVWXYZabcdefghijklmnopqrstuvwxyz0123456789+/".data

/-- Alphabet character of a six-bit group. -/
def b64Char (n : Nat) : Char := base64Alphabet.getD (n % 64) 'A'

/-- Base64 encoding of a byte list, three bytes to four characters, with
trailing padding equals on a short final group. -/
def base64Encode : List Nat → List Char
  | [] => []
  | [b1] => [b64Char (b1 / 4), b64Char (b1 % 4 * 16), '=', '=']
  | [b1, b2] => [b64Char (b1 / 4), b64Char (b1 % 4 * 16 + b2 / 16), b64Char (b2 % 16 * 4), '=']
  | b1 :: b2 :: b3 :: rest =>
    [b64Char (b1 / 4), b64Char (b1 % 4 * 16 + b2 / 16),
     b64Char (b2 % 16 * 4 + b3 / 64), b64Char (b3 % 64)] ++ base64Encode rest

/-- Modelled from the spec: the btoa global used by util stringToBase64Url
(not under src); base64 encodes the char codes of a latin-1 string. -/
def btoa (s : String) : String := String.mk (base64Encode (s.data.map Char.toNat))

/-- Conversion of one base64 character to the url-safe variant: plus becomes
minus and slash becomes underscore. -/
def base64CharToUrl (c : Char) : Char :=
  if c == '+' then '-' else if c == '/' then '_' else c

/-- Removal of the trailing padding equals characters. -/
def stripTrailingEquals (l : List Char) : List Char :=
  (l.reverse.dropWhile (fun c => c == '=')).reverse

/-- Modelled from the spec: util stringToBase64Url (not under src) base64
encodes its input and converts it to the url-safe variant with the padding
removed. -/
def stringToBase64Url (s : String) : String :=
  String.mk (stripTrailingEquals ((btoa s).data.map base64CharToUrl))

/-- Source computeChallenge: UTF-8 encode the verifier, digest with SHA-256,
read the digest bytes as a latin-1 string, and convert to url-safe base64.
The promise wrapper is dropped: the embedding returns the resolved value. -/
def computeChallenge (str : String) : String :=
  let buffer := str.data.flatMap utf8Bytes
  let digest := sha256 buffer
  let hash := String.mk (digest.map Char.ofNat)
  stringToBase64Url hash

/-- The lower-case hexadecimal alphabet that dec2hex draws from. -/
def hexChars : List Char := "0123456789abcdef".data

/-- Characters allowed in a url-safe base64 string: everything except plus,
slash and the padding equals. -/
def urlSafeB64Char (c : Char) : Bool := c != '+' && c != '/' && c != '='

/-- Number of storage tiers currently holding a record with a truthy
codeVerifier; the flow-metadata invariant asks for at most one. -/
def verifierRecordCount (st : StorageState) : Nat :=
  (if truthy (lookupField st.tierA "codeVerifier") then 1 else 0) +
  (if truthy (lookupField st.tierB "codeVerifier") then 1 else 0)

theorem truthy_iff (o : Option String) : truthy o = true ↔ ∃ s, o = some s ∧ s ≠ "" := by
  cases o with
  | none => simp [truthy]
  | some s => simp [truthy]

theorem readTier_getStorage_localStorage (st : StorageState) :
    readTier (getStorage (some true)) st = st.tierA := rfl

theorem readTier_getStorage_sessionStorage (st : StorageState) :
    readTier (getStorage (some false)) st = st.tierB := rfl

theorem readTier_getStorage_default (st : StorageState) :
    readTier (getStorage none) st = st.tierB := rfl

theorem clearMeta_eq (st : StorageState) : clearMeta st = ⟨[], []⟩ := by
  simp [clearMeta, clearTier, writeTier, getStorage]

theorem saveMeta_state (st : StorageState) (m : PKCEMeta) :
    (saveMeta st m).1 = ⟨[], m⟩ := by
  simp [saveMeta, getStorage, clearMeta_eq, writeTier]

/-- C1: for every prior storage state and every meta record with a non-empty
codeVerifier v plus extra fields, saveMeta completes without throwing (an
existing codeVerifier in either tier at most adds one of the two warnings),
and an immediate loadMeta returns a record whose codeVerifier equals v and
which contains every extra field of the saved record, even when a stale
record previously existed in tier A. -/
theorem saveMeta_then_loadMeta_roundtrip (st : StorageState) (v : String)
    (extra : List (String × String)) (hv : v ≠ "") :
    (∀ w ∈ (saveMeta st (("codeVerifier", v) :: extra)).2,
        w = saveMetaLocalWarning ∨ w = saveMetaSessionWarning) ∧
    ∃ rec, (loadMeta (saveMeta st (("codeVerifier", v) :: extra)).1).1 = Except.ok rec ∧
      lookupField rec "codeVerifier" = some v ∧
      ∀ p ∈ extra, p ∈ rec := by
  constructor
  · intro w hw
    simp only [saveMeta] at hw
    rcases List.mem_append.mp hw with hmem | hmem <;>
      [skip; skip] <;> split at hmem <;> simp_all
  · refine ⟨("codeVerifier", v) :: extra, ?_, ?_, ?_⟩
    · rw [saveMeta_state]
      simp [loadMeta, getStorage, readTier, lookupField, truthy, hv]
    · simp [lookupField]
    · intro p hp
      exact List.mem_cons_of_mem _ hp

/-- Witness for C1 at a concrete stale state and record. -/
theorem saveMeta_then_loadMeta_roundtrip_witness :
    ("v1" : String) ≠ "" ∧
    ((∀ w ∈ (saveMeta ⟨[("codeVerifier", "stale")], []⟩
          (("codeVerifier", "v1") :: [("redirectUri", "https://app/cb")])).2,
        w = saveMetaLocalWarning ∨ w = saveMetaSessionWarning) ∧
    ∃ rec, (loadMeta (saveMeta ⟨[("codeVerifier", "stale")], []⟩
          (("codeVerifier", "v1") :: [("redirectUri", "https://app/cb")])).1).1 = Except.ok rec ∧
      lookupField rec "codeVerifier" = some "v1" ∧
      ∀ p ∈ [("redirectUri", "https://app/cb")], p ∈ rec) :=
  ⟨by decide, saveMeta_then_loadMeta_roundtrip ⟨[("codeVerifier", "stale")], []⟩ "v1"
    [("redirectUri", "https://app/cb")] (by decide)⟩

/-- C2: loadMeta returns the tier A record when it has a truthy codeVerifier,
otherwise the tier B record when that one has a truthy codeVerifier, and
otherwise throws the dedicated state-not-found error, whose message differs
from the configuration and precondition error messages of the exchanger. -/
theorem loadMeta_tier_precedence (st : StorageState) :
    (truthy (lookupField st.tierA "codeVerifier") = true →
        (loadMeta st).1 = Except.ok st.tierA) ∧
    (truthy (lookupField st.tierA "codeVerifier") = false →
      truthy (lookupField st.tierB "codeVerifier") = true →
        (loadMeta st).1 = Except.ok st.tierB) ∧
    (truthy (lookupField st.tierA "codeVerifier") = false →
      truthy (lookupField st.tierB "codeVerifier") = false →
        (loadMeta st).1 = Except.error ⟨loadMetaErrorMessage⟩) ∧
    (loadMetaErrorMessage ≠ clientIdErrorMessage ∧
     loadMetaErrorMessage ≠ redirectUriErrorMessage ∧
     loadMetaErrorMessage ≠ authorizationCodeErrorMessage ∧
     loadMetaErrorMessage ≠ codeVerifierErrorMessage) := by
  refine ⟨?_, ?_, ?_, by decide⟩ <;>
    · intros
      simp_all [loadMeta, getStorage, readTier]

/-- Witness for C2 at concrete states for each tier case. -/
theorem loadMeta_tier_precedence_witness :
    (truthy (lookupField ([("codeVerifier", "a")] : PKCEMeta) "codeVerifier") = true ∧
      (loadMeta ⟨[("codeVerifier", "a")], [("codeVerifier", "b")]⟩).1 =
        Except.ok [("codeVerifier", "a")]) ∧
    (truthy (lookupField ([] : PKCEMeta) "codeVerifier") = false ∧
      truthy (lookupField ([("codeVerifier", "b")] : PKCEMeta) "codeVerifier") = true ∧
      (loadMeta ⟨[], [("codeVerifier", "b")]⟩).1 = Except.ok [("codeVerifier", "b")]) ∧
    (loadMeta ⟨[], []⟩).1 = Except.error ⟨loadMetaErrorMessage⟩ :=
  ⟨⟨by decide, (loadMeta_tier_precedence ⟨[("codeVerifier", "a")], [("codeVerifier", "b")]⟩).1
      (by decide)⟩,
   ⟨by decide, by decide,
      ((loadMeta_tier_precedence ⟨[], [("codeVerifier", "b")]⟩).2.1 (by decide) (by decide))⟩,
   ((loadMeta_tier_precedence ⟨[], []⟩).2.2.1 (by decide) (by decide))⟩

/-- C5: the at-most-one-record invariant across the two tiers is established
by saveMeta from any starting state, since saveMeta clears both tiers and
then writes the record to tier B alone; clearMeta leaves zero records; and
loadMeta changes neither tier, so no stale record survives a save. -/
theorem pkce_single_record_invariant (st : StorageState) (m : PKCEMeta) :
    (saveMeta st m).1 = ⟨[], m⟩ ∧
    verifierRecordCount (saveMeta st m).1 ≤ 1 ∧
    verifierRecordCount (clearMeta st) = 0 ∧
    (loadMeta st).2 = st := by
  refine ⟨saveMeta_state st m, ?_, ?_, ?_⟩
  · rw [saveMeta_state]
    show (if truthy (lookupField [] "codeVerifier") = true then 1 else 0) +
         (if truthy (lookupField m "codeVerifier") = true then 1 else 0) ≤ 1
    cases h : truthy (lookupField m "codeVerifier") <;> simp [h, lookupField, truthy]
  · rw [clearMeta_eq]
    simp [verifierRecordCount, lookupField, truthy]
  · simp only [loadMeta]
    split
    · split <;> rfl
    · rfl

/-- C6: clearMeta empties both tiers unconditionally and without error, is
idempotent, and a loadMeta performed right after it throws the
state-not-found error. -/
theorem clearMeta_idempotent_then_loadMeta_fails (st : StorageState) :
    clearMeta st = ⟨[], []⟩ ∧
    clearMeta (clearMeta st) = clearMeta st ∧
    (loadMeta (clearMeta st)).1 = Except.error ⟨loadMetaErrorMessage⟩ := by
  refine ⟨clearMeta_eq st, ?_, ?_⟩
  · rw [clearMeta_eq, clearMeta_eq]
  · rw [clearMeta_eq]
    simp [loadMeta, getStorage, readTier, lookupField, truthy]

/-- C9: loadMeta performs no writes: the storage state after the call, on
success as on failure, is the state before it, so a second loadMeta with no
intervening operation returns the same result. -/
theorem loadMeta_preserves_storage (st : StorageState) :
    (loadMeta st).2 = st ∧ loadMeta (loadMeta st).2 = loadMeta st := by
  have h : (loadMeta st).2 = st := by
    simp only [loadMeta]
    split
    · split <;> rfl
    · rfl
  exact ⟨h, by rw [h]⟩

/-- C10: a stored record whose codeVerifier is absent or the empty string is
treated as if no record exists: loadMeta skips such a tier A record and
falls through to tier B, throws the state-not-found error when both tiers
lack a non-empty codeVerifier, and saveMeta emits no warning for it. -/
theorem empty_codeVerifier_treated_as_absent (st : StorageState) (m : PKCEMeta)
    (hA : truthy (lookupField st.tierA "codeVerifier") = false) :
    (truthy (lookupField st.tierB "codeVerifier") = true →
        (loadMeta st).1 = Except.ok st.tierB) ∧
    (truthy (lookupField st.tierB "codeVerifier") = false →
        (loadMeta st).1 = Except.error ⟨loadMetaErrorMessage⟩ ∧
        (saveMeta st m).2 = []) ∧
    saveMetaLocalWarning ∉ (saveMeta st m).2 := by
  refine ⟨fun hB => (loadMeta_tier_precedence st).2.1 hA hB, fun hB => ?_, ?_⟩
  · refine ⟨(loadMeta_tier_precedence st).2.2.1 hA hB, ?_⟩
    simp only [saveMeta, readTier_getStorage_localStorage, readTier_getStorage_default, hA]
    simp [hB]
  · intro hmem
    simp only [saveMeta, readTier_getStorage_localStorage, readTier_getStorage_default, hA] at hmem
    simp only [Bool.false_eq_true, if_false, List.nil_append] at hmem
    split at hmem
    · simp only [List.mem_singleton] at hmem
      exact absurd hmem (by decide)
    · simp at hmem

/-- Witness for C10 at a concrete state holding an empty-string codeVerifier
in tier A and a valid record in tier B. -/
theorem empty_codeVerifier_treated_as_absent_witness :
    truthy (lookupField ([("codeVerifier", "")] : PKCEMeta) "codeVerifier") = false ∧
    (truthy (lookupField ([("codeVerifier", "b")] : PKCEMeta) "codeVerifier") = true →
        (loadMeta ⟨[("codeVerifier", "")], [("codeVerifier", "b")]⟩).1 =
          Except.ok [("codeVerifier", "b")]) ∧
    saveMetaLocalWarning ∉
      (saveMeta ⟨[("codeVerifier", "")], [("codeVerifier", "b")]⟩ [("codeVerifier", "v")]).2 :=
  ⟨by decide,
   (empty_codeVerifier_treated_as_absent ⟨[("codeVerifier", "")], [("codeVerifier", "b")]⟩
      [("codeVerifier", "v")] (by decide)).1,
   (empty_codeVerifier_treated_as_absent ⟨[("codeVerifier", "")], [("codeVerifier", "b")]⟩
      [("codeVerifier", "v")] (by decide)).2.2⟩

theorem validateOptions_ok_iff (options : TokenParams) :
    validateOptions options = Except.ok () ↔
      truthy options.clientId = true ∧ truthy options.redirectUri = true ∧
      (truthy options.authorizationCode = true ∨ truthy options.interactionCode = true) ∧
      truthy options.codeVerifier = true := by
  cases hc : truthy options.clientId <;>
    cases hr : truthy options.redirectUri <;>
      cases ha : truthy options.authorizationCode <;>
        cases hi : truthy options.interactionCode <;>
          cases hv : truthy options.codeVerifier <;>
            simp [validateOptions, hc, hr, ha, hi, hv]

/-- C3: the exchanger validates fail-fast in the fixed order missing
clientId, then missing redirectUri, then missing both codes, then missing
codeVerifier; each call reports only the first violated check, the four
error messages are pairwise distinct, and a missing clientId makes
exchangeCodeForTokens fail with that configuration error without issuing
any HTTP request. -/
theorem exchangeCodeForTokens_validation_order (options : TokenParams) (urls : CustomUrls) :
    (truthy options.clientId = false →
        validateOptions options = Except.error ⟨clientIdErrorMessage⟩ ∧
        exchangeCodeForTokens options urls = Except.error ⟨clientIdErrorMessage⟩) ∧
    (truthy options.clientId = true → truthy options.redirectUri = false →
        validateOptions options = Except.error ⟨redirectUriErrorMessage⟩) ∧
    (truthy options.clientId = true → truthy options.redirectUri = true →
      truthy options.authorizationCode = false → truthy options.interactionCode = false →
        validateOptions options = Except.error ⟨authorizationCodeErrorMessage⟩) ∧
    (truthy options.clientId = true → truthy options.redirectUri = true →
      (truthy options.authorizationCode = true ∨ truthy options.interactionCode = true) →
      truthy options.codeVerifier = false →
        validateOptions options = Except.error ⟨codeVerifierErrorMessage⟩) ∧
    (clientIdErrorMessage ≠ redirectUriErrorMessage ∧
     clientIdErrorMessage ≠ authorizationCodeErrorMessage ∧
     clientIdErrorMessage ≠ codeVerifierErrorMessage ∧
     redirectUriErrorMessage ≠ authorizationCodeErrorMessage ∧
     redirectUriErrorMessage ≠ codeVerifierErrorMessage ∧
     authorizationCodeErrorMessage ≠ codeVerifierErrorMessage) := by
  refine ⟨?_, ?_, ?_, ?_, by decide⟩
  · intro h1
    have hv : validateOptions options = Except.error ⟨clientIdErrorMessage⟩ := by
      simp [validateOptions, h1]
    exact ⟨hv, by simp [exchangeCodeForTokens, hv]⟩
  · intro h1 h2
    simp [validateOptions, h1, h2]
  · intro h1 h2 h3 h4
    simp [validateOptions, h1, h2, h3, h4]
  · intro h1 h2 h3 h4
    rcases h3 with h3 | h3 <;> simp [validateOptions, h1, h2, h3, h4]

/-- Witness for C3: a missing clientId is reported as the configuration
error and no request is issued. -/
theorem exchangeCodeForTokens_validation_order_witness :
    truthy (TokenParams.mk none (some "https://app/cb") (some "code123") none (some "cv")).clientId
        = false ∧
    validateOptions (TokenParams.mk none (some "https://app/cb") (some "code123") none (some "cv"))
        = Except.error ⟨clientIdErrorMessage⟩ ∧
    exchangeCodeForTokens
        (TokenParams.mk none (some "https://app/cb") (some "code123") none (some "cv"))
        ⟨"https://issuer/token"⟩ = Except.error ⟨clientIdErrorMessage⟩ :=
  ⟨by decide,
   (exchangeCodeForTokens_validation_order
      (TokenParams.mk none (some "https://app/cb") (some "code123") none (some "cv"))
      ⟨"https://issuer/token"⟩).1 (by decide)⟩

/-- C4: for every validated option set the request body holds client_id,
redirect_uri, grant_type and code_verifier; when interactionCode is set the
body holds interaction_code, grant_type is interaction_code and no code key
is sent, even when authorizationCode is also set; otherwise the body holds
code with grant_type authorization_code; and only keys with present values
appear, as the listed key sets are exact. -/
theorem getPostData_body_contents (options : TokenParams)
    (h : validateOptions options = Except.ok ()) :
    (lookupField (getPostDataParams options) "client_id" = options.clientId ∧
     lookupField (getPostDataParams options) "redirect_uri" = options.redirectUri ∧
     lookupField (getPostDataParams options) "code_verifier" = options.codeVerifier) ∧
    (truthy options.interactionCode = true →
        (getPostDataParams options).map Prod.fst =
          ["client_id", "redirect_uri", "grant_type", "code_verifier", "interaction_code"] ∧
        lookupField (getPostDataParams options) "grant_type" = some "interaction_code" ∧
        lookupField (getPostDataParams options) "interaction_code" = options.interactionCode ∧
        lookupField (getPostDataParams options) "code" = none) ∧
    (truthy options.interactionCode = false →
        (getPostDataParams options).map Prod.fst =
          ["client_id", "redirect_uri", "grant_type", "code_verifier", "code"] ∧
        lookupField (getPostDataParams options) "grant_type" = some "authorization_code" ∧
        lookupField (getPostDataParams options) "code" = options.authorizationCode) := by
  obtain ⟨hcid, hred, hcode, hcv⟩ := (validateOptions_ok_iff options).mp h
  obtain ⟨cid, hc1, -⟩ := (truthy_iff _).mp hcid
  obtain ⟨red, hr1, -⟩ := (truthy_iff _).mp hred
  obtain ⟨cv, hv1, -⟩ := (truthy_iff _).mp hcv
  cases hic : truthy options.interactionCode with
  | true =>
    obtain ⟨ic, hi1, hine⟩ := (truthy_iff _).mp hic
    have hicT : truthy (some ic) = true := by simp [truthy, hine]
    simp [getPostDataParams, removeNils, lookupField, hc1, hr1, hv1, hi1, hicT]
  | false =>
    have hac : truthy options.authorizationCode = true := by
      rcases hcode with h1 | h1
      · exact h1
      · rw [h1] at hic
        cases hic
    obtain ⟨ac, ha1, hane⟩ := (truthy_iff _).mp hac
    have hacT : truthy (some ac) = true := by simp [truthy, hane]
    simp [getPostDataParams, removeNils, lookupField, hc1, hr1, hv1, ha1, hic, hacT]

/-- Witness for C4 at a fully populated option set with both codes present:
interaction_code wins and no code key is sent. -/
theorem getPostData_body_contents_witness :
    validateOptions (TokenParams.mk (some "abc") (some "https://app/cb") (some "code123")
        (some "icode") (some "cv")) = Except.ok Unit.unit ∧
    (truthy (TokenParams.mk (some "abc") (some "https://app/cb") (some "code123")
        (some "icode") (some "cv")).interactionCode = true →
      (getPostDataParams (TokenParams.mk (some "abc") (some "https://app/cb") (some "code123")
          (some "icode") (some "cv"))).map Prod.fst =
        ["client_id", "redirect_uri", "grant_type", "code_verifier", "interaction_code"] ∧
      lookupField (getPostDataParams (TokenParams.mk (some "abc") (some "https://app/cb")
          (some "code123") (some "icode") (some "cv"))) "grant_type" = some "interaction_code" ∧
      lookupField (getPostDataParams (TokenParams.mk (some "abc") (some "https://app/cb")
          (some "code123") (some "icode") (some "cv"))) "interaction_code" = some "icode" ∧
      lookupField (getPostDataParams (TokenParams.mk (some "abc") (some "https://app/cb")
          (some "code123") (some "icode") (some "cv"))) "code" = none) :=
  ⟨rfl,
   (getPostData_body_contents (TokenParams.mk (some "abc") (some "https://app/cb")
      (some "code123") (some "icode") (some "cv")) rfl).2.1⟩

set_option maxRecDepth 8000 in
theorem dec2hex_byte (d : Nat) (hd : d < 256) :
    (dec2hex d).data.length = 2 ∧ ∀ c ∈ (dec2hex d).data, c ∈ hexChars := by
  have hall : ((List.range 256).all
      (fun x => (dec2hex x).data.length == 2 &&
        (dec2hex x).data.all (fun c => hexChars.contains c))) = true := by decide
  have hx := List.all_eq_true.mp hall d (List.mem_range.mpr hd)
  simp only [Bool.and_eq_true, beq_iff_eq, List.all_eq_true] at hx
  refine ⟨hx.1, fun c hc => ?_⟩
  exact List.elem_iff.mp (hx.2 c hc)

theorem hex_flatten_spec (bs : List Nat) (h : ∀ b ∈ bs, b < 256) :
    ((bs.map dec2hex).map String.data).flatten.length = 2 * bs.length ∧
    ∀ c ∈ ((bs.map dec2hex).map String.data).flatten, c ∈ hexChars := by
  induction bs with
  | nil => simp
  | cons b rest ih =>
    have hb := dec2hex_byte b (h b (by simp))
    have ihr := ih (fun x hx => h x (by simp [hx]))
    constructor
    · simp only [List.map_cons, List.flatten_cons, List.length_append, hb.1, ihr.1,
        List.length_cons]
      omega
    · intro c hc
      simp only [List.map_cons, List.flatten_cons, List.mem_append] at hc
      rcases hc with hc | hc
      · exact hb.2 c hc
      · exact ihr.2 c hc

theorem getRandomString_spec (rnd : Nat → Nat) (len : Nat) :
    (getRandomString rnd len).data.length = len ∧
    ∀ c ∈ (getRandomString rnd len).data, c ∈ hexChars := by
  have hbytes : ∀ b ∈ (List.range ((len + 1) / 2)).map (fun i => rnd i % 256), b < 256 := by
    intro b hb
    obtain ⟨i, -, hi⟩ := List.mem_map.mp hb
    omega
  have hj := hex_flatten_spec _ hbytes
  have hlen : ((List.range ((len + 1) / 2)).map (fun i => rnd i % 256)).length = (len + 1) / 2 := by
    simp
  rw [hlen] at hj
  constructor
  · show ((String.join _).data.take len).length = len
    rw [String.data_join, List.length_take, hj.1]
    omega
  · intro c hc
    have hc2 : c ∈ (String.join ((((List.range ((len + 1) / 2)).map
        (fun i => rnd i % 256))).map dec2hex)).data := List.mem_of_mem_take hc
    rw [String.data_join] at hc2
    exact hj.2 c hc2

theorem encodeChar_of_unreserved (l : List Char) (h : ∀ c ∈ l, isUnreserved c = true) :
    l.flatMap encodeChar = l := by
  induction l with
  | nil => rfl
  | cons a as ih =>
    have ha : isUnreserved a = true := h a (by simp)
    have ihr := ih (fun c hc => h c (by simp [hc]))
    simp [List.flatMap_cons, encodeChar, ha, ihr]

theorem hexChars_unreserved : ∀ c ∈ hexChars, isUnreserved c = true := by decide

/-- C7 counterexample: the prefix consisting of one space has length below
MIN_VERIFIER_LENGTH, yet generateVerifier returns a string of length 45,
not MIN_VERIFIER_LENGTH, because percent-encoding expands the space. -/
theorem generateVerifier_min_length_counterexample :
    (" ".length < MIN_VERIFIER_LENGTH) ∧
    (generateVerifier (fun _ => 0) (some " ")).length ≠ MIN_VERIFIER_LENGTH := by
  constructor
  · decide
  · decide

/-- C7 as amended: for every random stream and every prefix of length below
MIN_VERIFIER_LENGTH made of characters percent-encoding leaves unchanged
(the omitted prefix included, as the empty string), generateVerifier returns
a string of length exactly MIN_VERIFIER_LENGTH consisting only of URL-safe
characters, whose suffix beyond the prefix is the random hex string. -/
theorem generateVerifier_unreserved_spec (rnd : Nat → Nat) (p : Option String)
    (h1 : (p.getD "").length < MIN_VERIFIER_LENGTH)
    (h2 : ∀ c ∈ (p.getD "").data, isUnreserved c = true) :
    (generateVerifier rnd p).length = MIN_VERIFIER_LENGTH ∧
    (∀ c ∈ (generateVerifier rnd p).data, isUnreserved c = true) ∧
    (generateVerifier rnd p).data.drop (p.getD "").length =
      (getRandomString rnd (MIN_VERIFIER_LENGTH - (p.getD "").length)).data ∧
    ∀ c ∈ (getRandomString rnd (MIN_VERIFIER_LENGTH - (p.getD "").length)).data,
      c ∈ hexChars := by
  have hr := getRandomString_spec rnd (MIN_VERIFIER_LENGTH - (p.getD "").length)
  have hall : ∀ c ∈ ((p.getD "") ++
      getRandomString rnd (MIN_VERIFIER_LENGTH - (p.getD "").length)).data,
      isUnreserved c = true := by
    intro c hc
    rw [String.data_append] at hc
    rcases List.mem_append.mp hc with hc | hc
    · exact h2 c hc
    · exact hexChars_unreserved c (hr.2 c hc)
  have hflat : ((p.getD "" ++
      getRandomString rnd (MIN_VERIFIER_LENGTH - (p.getD "").length)).data).flatMap encodeChar =
      (p.getD "" ++ getRandomString rnd (MIN_VERIFIER_LENGTH - (p.getD "").length)).data :=
    encodeChar_of_unreserved _ hall
  have hlen43 : (p.getD "" ++
      getRandomString rnd (MIN_VERIFIER_LENGTH - (p.getD "").length)).data.length =
      MIN_VERIFIER_LENGTH := by
    rw [String.data_append, List.length_append]
    have h3 := hr.1
    have h4 : (p.getD "").data.length = (p.getD "").length := rfl
    omega
  have hgen : (generateVerifier rnd p).data =
      (p.getD "" ++ getRandomString rnd (MIN_VERIFIER_LENGTH - (p.getD "").length)).data := by
    simp only [generateVerifier, jsSliceTo, encodeURIComponent, if_pos h1]
    rw [hflat]
    exact List.take_of_length_le (by rw [hlen43]; decide)
  refine ⟨?_, ?_, ?_, fun c hc => hr.2 c hc⟩
  · show (generateVerifier rnd p).data.length = MIN_VERIFIER_LENGTH
    rw [hgen, hlen43]
  · intro c hc
    rw [hgen] at hc
    exact hall c hc
  · rw [hgen, String.data_append]
    have h4 : (p.getD "").length = (p.getD "").data.length := rfl
    rw [h4, List.drop_left]

/-- Witness for the amended C7 at the concrete prefix xyz and the identity
random stream. -/
theorem generateVerifier_unreserved_spec_witness :
    (("xyz" : String).length < MIN_VERIFIER_LENGTH ∧
      ∀ c ∈ ("xyz" : String).data, isUnreserved c = true) ∧
    ((generateVerifier (fun i => i) (some "xyz")).length = MIN_VERIFIER_LENGTH ∧
     (∀ c ∈ (generateVerifier (fun i => i) (some "xyz")).data, isUnreserved c = true) ∧
     (generateVerifier (fun i => i) (some "xyz")).data.drop ((some "xyz").getD "").length =
       (getRandomString (fun i => i)
         (MIN_VERIFIER_LENGTH - ((some "xyz").getD "").length)).data ∧
     ∀ c ∈ (getRandomString (fun i => i)
         (MIN_VERIFIER_LENGTH - ((some "xyz").getD "").length)).data, c ∈ hexChars) :=
  ⟨⟨by decide, by decide⟩,
   generateVerifier_unreserved_spec (fun i => i) (some "xyz") (by decide) (by decide)⟩

theorem b64Char_mem (n : Nat) : b64Char n ∈ base64Alphabet := by
  have h : n % 64 < base64Alphabet.length := by
    have h64 : base64Alphabet.length = 64 := rfl
    omega
  show base64Alphabet.getD (n % 64) 'A' ∈ base64Alphabet
  rw [List.getD_eq_getElem _ _ h]
  exact List.getElem_mem h

theorem base64Encode_decomp (bs : List Nat) :
    ∃ body pad, base64Encode bs = body ++ pad ∧
      (∀ c ∈ body, c ∈ base64Alphabet) ∧
      (pad = [] ∨ pad = ['='] ∨ pad = ['=', '=']) := by
  induction bs using base64Encode.induct with
  | case1 => exact ⟨[], [], rfl, by simp, Or.inl rfl⟩
  | case2 b1 =>
    refine ⟨[b64Char (b1 / 4), b64Char (b1 % 4 * 16)], ['=', '='], rfl, ?_,
      Or.inr (Or.inr rfl)⟩
    intro c hc
    simp only [List.mem_cons, List.not_mem_nil, or_false] at hc
    rcases hc with h | h <;> subst h <;> exact b64Char_mem _
  | case3 b1 b2 =>
    refine ⟨[b64Char (b1 / 4), b64Char (b1 % 4 * 16 + b2 / 16), b64Char (b2 % 16 * 4)],
      ['='], rfl, ?_, Or.inr (Or.inl rfl)⟩
    intro c hc
    simp only [List.mem_cons, List.not_mem_nil, or_false] at hc
    rcases hc with h | h | h <;> subst h <;> exact b64Char_mem _
  | case4 b1 b2 b3 rest ih =>
    obtain ⟨body, pad, he, hb, hp⟩ := ih
    refine ⟨[b64Char (b1 / 4), b64Char (b1 % 4 * 16 + b2 / 16),
      b64Char (b2 % 16 * 4 + b3 / 64), b64Char (b3 % 64)] ++ body, pad, ?_, ?_, hp⟩
    · show base64Encode (b1 :: b2 :: b3 :: rest) = _
      rw [base64Encode, he, List.append_assoc]
    · intro c hc
      rcases List.mem_append.mp hc with hc | hc
      · simp only [List.mem_cons, List.not_mem_nil, or_false] at hc
        rcases hc with h | h | h | h <;> subst h <;> exact b64Char_mem _
      · exact hb c hc

theorem dropWhile_eq_self_of_all_false {α : Type} (p : α → Bool) (l : List α)
    (h : ∀ c ∈ l, p c = false) : l.dropWhile p = l := by
  cases l with
  | nil => rfl
  | cons a as => simp [List.dropWhile_cons, h a (List.mem_cons_self a as)]

theorem stripTrailingEquals_append_pad (m pad : List Char)
    (hm : ∀ c ∈ m, (c == '=') = false)
    (hp : pad = [] ∨ pad = ['='] ∨ pad = ['=', '=']) :
    stripTrailingEquals (m ++ pad) = m := by
  have hrev : m.reverse.dropWhile (fun c => c == '=') = m.reverse :=
    dropWhile_eq_self_of_all_false _ _ (fun c hc => hm c (List.mem_reverse.mp hc))
  rcases hp with h | h | h <;> subst h <;>
    simp [stripTrailingEquals, List.reverse_append, List.dropWhile_cons, hrev]

theorem base64Alphabet_toUrl_safe :
    ∀ c ∈ base64Alphabet, urlSafeB64Char (base64CharToUrl c) = true := by decide

theorem stringToBase64Url_urlsafe (s : String) :
    ∀ c ∈ (stringToBase64Url s).data, urlSafeB64Char c = true := by
  obtain ⟨body, pad, he, hb, hp⟩ := base64Encode_decomp (s.data.map Char.toNat)
  intro c hc
  have hdata : (stringToBase64Url s).data =
      stripTrailingEquals ((base64Encode (s.data.map Char.toNat)).map base64CharToUrl) := rfl
  rw [hdata, he, List.map_append] at hc
  have hmapped : ∀ x ∈ body.map base64CharToUrl, (x == '=') = false := by
    intro x hx
    obtain ⟨y, hy, hxy⟩ := List.mem_map.mp hx
    have hy2 := base64Alphabet_toUrl_safe y (hb y hy)
    subst hxy
    simp only [urlSafeB64Char, Bool.and_eq_true, bne_iff_ne] at hy2
    simp only [beq_eq_false_iff_ne]
    exact hy2.2
  have hpadmap : pad.map base64CharToUrl = pad := by
    rcases hp with h | h | h <;> subst h <;> rfl
  rw [hpadmap, stripTrailingEquals_append_pad _ _ hmapped hp] at hc
  obtain ⟨y, hy, hxy⟩ := List.mem_map.mp hc
  subst hxy
  exact base64Alphabet_toUrl_safe y (hb y hy)

/-- C8: computeChallenge is deterministic — equal verifier strings yield
equal challenge strings — and for every verifier the returned challenge
contains none of the characters plus, slash or equals: the output stays in
the url-safe base64 alphabet with no padding. -/
theorem computeChallenge_deterministic_and_urlsafe (v w : String) :
    (v = w → computeChallenge v = computeChallenge w) ∧
    ∀ c ∈ (computeChallenge v).data, c ≠ '+' ∧ c ≠ '/' ∧ c ≠ '=' := by
  refine ⟨fun h => by rw [h], ?_⟩
  intro c hc
  have hs : computeChallenge v =
      stringToBase64Url (String.mk ((sha256 (v.data.flatMap utf8Bytes)).map Char.ofNat)) := rfl
  rw [hs] at hc
  have hsafe := stringToBase64Url_urlsafe _ c hc
  simp only [urlSafeB64Char, Bool.and_eq_true, bne_iff_ne] at hsafe
  exact ⟨hsafe.1.1, hsafe.1.2, hsafe.2⟩

/-- Witness for C8: the determinism conjunct applied at a concrete equal
pair of verifiers. -/
theorem computeChallenge_deterministic_and_urlsafe_witness :
    ("abc" : String) = "abc" ∧ computeChallenge "abc" = computeChallenge "abc" :=
  ⟨rfl, (computeChallenge_deterministic_and_urlsafe "abc" "abc").1 rfl⟩
